import Mathlib

/-!
Verification of the Monthly-Budget-Manager core against its specification.

The Python sources are shallowly embedded:
* monetary values (Python `float`) are modelled as rationals (`ℚ`);
* a text cell that the code feeds to Python's `float(...)` is modelled by the
  outcome of that conversion, an `Option ℚ` (`none` = the conversion raises);
* fallible code is modelled in `Except`;
* Python dicts built by insertion (`defaultdict` buckets, count maps) are
  modelled as association lists in insertion order.
-/

namespace Budget

/-- Python `str.strip()` (no argument): remove leading and trailing whitespace.
(Python also strips some further Unicode whitespace; ASCII whitespace
suffices for the inputs at hand.) Implemented structurally on the character
list so that concrete instances evaluate. -/
def pyStrip (s : String) : String :=
  ⟨((s.data.dropWhile Char.isWhitespace).reverse.dropWhile Char.isWhitespace).reverse⟩

/-- Python `str.lower()` (ASCII range, as the header names use). -/
def pyLower (s : String) : String := ⟨s.data.map Char.toLower⟩

/-- Worker for `pySplitChar`: accumulates the current piece reversed. -/
def splitCharAux (c : Char) : List Char → List Char → List String
  | [], cur => [⟨cur.reverse⟩]
  | x :: xs, cur =>
    if x = c then (⟨cur.reverse⟩ : String) :: splitCharAux c xs []
    else splitCharAux c xs (x :: cur)

/-- Python `s.split(c)` for a single-character separator. -/
def pySplitChar (s : String) (c : Char) : List String := splitCharAux c s.data []

/-- Python truthiness fallback `a or b` on strings (`""` is falsy). -/
def pyOrS (a b : String) : String := if a = "" then b else a

/-- Python truthiness fallback `a or b` where `a : Optional[str]`
(`None` and `""` are falsy). -/
def pyOrOpt (a : Option String) (b : Option String) : Option String :=
  match a with
  | none => b
  | some s => if s = "" then b else some s

/-- Decimal digits of a character list, as `int(...)` reads an all-digit string. -/
def listDigitsToNat (cs : List Char) : Nat :=
  cs.foldl (fun a c => a * 10 + (c.toNat - Char.toNat '0')) 0

/-- `int(s)` for an all-digit string `s`. -/
def digitsToNat (s : String) : Nat := listDigitsToNat s.data

/-- Python `str.isdigit` (restricted to ASCII digits): nonempty and all digits. -/
def pyIsDigit (s : String) : Bool := !s.data.isEmpty && s.data.all Char.isDigit

/-- Python `int(s)` on an already-stripped string: optional sign followed by
digits; `none` when the conversion raises `ValueError`.
(The numeric-literal underscore extension of Python 3.6 is not modelled.) -/
def pyInt? (s : String) : Option Int :=
  match s.data with
  | [] => none
  | c :: rest =>
    if c = '+' then
      if !rest.isEmpty && rest.all Char.isDigit then some (listDigitsToNat rest) else none
    else if c = '-' then
      if !rest.isEmpty && rest.all Char.isDigit then some (-(listDigitsToNat rest : Int)) else none
    else
      if (c :: rest).all Char.isDigit then some (listDigitsToNat (c :: rest)) else none

/-- Character at position `i` of `s` (Python `s[i]`); only used below bounds checks. -/
def charAt (s : String) (i : Nat) : Char := s.data.getD i ' '

/-- Python slice `s[a:b]`. -/
def strSlice (s : String) (a b : Nat) : String := ⟨(s.data.drop a).take (b - a)⟩

/-- `f"{n:02d}"` for a natural number. -/
def pad2Nat (n : Nat) : String := if n < 10 then ("0") ++ toString n else toString n

/-- `f"{i:02d}"` for an integer (negative numbers are printed as-is). -/
def pad2Int (i : Int) : String :=
  if 0 ≤ i ∧ i < 10 then ("0") ++ toString i else toString i

/-- `%Y` of `strftime`: the year zero-padded to four digits. -/
def pad4Nat (n : Nat) : String :=
  if n < 10 then ("000") ++ toString n
  else if n < 100 then ("00") ++ toString n
  else if n < 1000 then ("0") ++ toString n
  else toString n

/-! ## Core data model (from `src/budget_manager.py`) -/

/-- (from `budget_manager.py`, `Income`) an income entry. -/
structure Income where
  name : String
  amount : ℚ
  date : Option String := none
  deriving Repr, DecidableEq

/-- (from `budget_manager.py`, `Expense`) an expense entry. -/
structure Expense where
  name : String
  amount : ℚ
  category : String := "Uncategorized"
  date : Option String := none
  deriving Repr, DecidableEq

/-- (from `budget_manager.py`, `BudgetMonth`) the ledger for one period. -/
structure BudgetMonth where
  month : Option String := none
  incomes : List Income := []
  expenses : List Expense := []
  deriving Repr, DecidableEq

/-- (from `budget_manager.py`, `_clamp_non_negative`) the argument is modelled by
the outcome of `float(value)`: `none` when the conversion raises (then the
function returns `0.0`), `some v` when it yields `v` (then `max(0.0, v)`). -/
def clamp_non_negative (value : Option ℚ) : ℚ :=
  match value with
  | none => 0
  | some v => max 0 v

/-- (from `budget_manager.py`, `BudgetMonth.add_income`). -/
def BudgetMonth.add_income (bm : BudgetMonth) (name : String) (amount : ℚ)
    (date : Option String) : BudgetMonth :=
  { bm with incomes := bm.incomes ++
      [{ name := pyOrS (pyStrip name) ("Income"),
         amount := clamp_non_negative (some amount),
         date := pyOrOpt date bm.month }] }

/-- (from `budget_manager.py`, `BudgetMonth.add_expense`). -/
def BudgetMonth.add_expense (bm : BudgetMonth) (name : String) (amount : ℚ)
    (category : Option String) (date : Option String) : BudgetMonth :=
  { bm with expenses := bm.expenses ++
      [{ name := pyOrS (pyStrip name) ("Expense"),
         amount := clamp_non_negative (some amount),
         category := pyOrS (pyStrip ((pyOrOpt category none).getD ("Uncategorized"))) ("Uncategorized"),
         date := pyOrOpt date bm.month }] }

/-- (from `budget_manager.py`, `BudgetMonth.total_income`). -/
def BudgetMonth.total_income (bm : BudgetMonth) : ℚ :=
  (bm.incomes.map Income.amount).sum

/-- (from `budget_manager.py`, `BudgetMonth.total_expenses`). -/
def BudgetMonth.total_expenses (bm : BudgetMonth) : ℚ :=
  (bm.expenses.map Expense.amount).sum

/-- (from `budget_manager.py`, `BudgetMonth.net`). -/
def BudgetMonth.net (bm : BudgetMonth) : ℚ :=
  bm.total_income - bm.total_expenses

/-- `buckets[k] += v` on an insertion-ordered association list
(a new key is appended, as in a `defaultdict`). -/
def bucketAdd (l : List (String × ℚ)) (k : String) (v : ℚ) : List (String × ℚ) :=
  match l with
  | [] => [(k, v)]
  | (k', v') :: rest =>
    if k' = k then (k', v' + v) :: rest else (k', v') :: bucketAdd rest k v

/-- (from `budget_manager.py`, `BudgetMonth.expenses_by_category`). -/
def BudgetMonth.expenses_by_category (bm : BudgetMonth) : List (String × ℚ) :=
  bm.expenses.foldl (fun acc e => bucketAdd acc e.category e.amount) []

/-- The base total selected by `relative_to` in `expense_percentages_by_category`. -/
def BudgetMonth.percent_base (bm : BudgetMonth) (relative_to : String) : ℚ :=
  if relative_to = "income" then bm.total_income else bm.total_expenses

/-- (from `budget_manager.py`, `BudgetMonth.expense_percentages_by_category`). -/
def BudgetMonth.expense_percentages_by_category (bm : BudgetMonth)
    (relative_to : String) : List (String × ℚ) :=
  let base := bm.percent_base relative_to
  let by_cat := bm.expenses_by_category
  if base ≤ 0 then by_cat.map (fun p => (p.1, 0))
  else by_cat.map (fun p => (p.1, p.2 / base * 100))

/-- (from `budget_manager.py`, `BudgetMonth.profit_margin`). -/
def BudgetMonth.profit_margin (bm : BudgetMonth) : ℚ :=
  if bm.total_income ≤ 0 then 0 else bm.net / bm.total_income * 100

/-! ## Mobile model (from `src/mobile/src/budget_manager_mobile/model.py`) -/

/-- (from `model.py`, `parse_amount`) the argument is the outcome of
`float(str(value).strip())`: `none` when the input is `None` or the conversion
raises (both return `0.0`), `some v` when it yields `v` (returned unclamped). -/
def parse_amount (value : Option ℚ) : ℚ :=
  match value with
  | none => 0
  | some v => v

/-- (from `model.py`, `totals`) income and expense rows are modelled by their
amount cells (see `parse_amount`); returns
(income_total, expense_total, profit, profit_margin). -/
def mobile_totals (incomes expenses : List (Option ℚ)) : ℚ × ℚ × ℚ × ℚ :=
  let inc_total := (incomes.map parse_amount).sum
  let exp_total := (expenses.map parse_amount).sum
  let profit := inc_total - exp_total
  let margin := if 0 < inc_total then profit / inc_total * 100 else 0
  (inc_total, exp_total, profit, margin)

/-! ## Ledger operations reachable from the front-ends

The CLI and GUI mutate a `BudgetMonth` only through `add_income`,
`add_expense` (GUI `add_income`/`add_expense` handlers) and bounds-checked
`del bm.incomes[idx]` / `del bm.expenses[idx]`
(GUI `remove_income_selected` / `remove_expense_selected`). -/

/-- One ledger mutation. -/
inductive Op where
  | addIncome (name : String) (amount : ℚ) (date : Option String)
  | addExpense (name : String) (amount : ℚ) (category : Option String) (date : Option String)
  | removeIncome (idx : Nat)
  | removeExpense (idx : Nat)
  deriving Repr

/-- Apply one mutation (removal is Python `del l[idx]` behind a bounds check,
i.e. `List.eraseIdx`). -/
def applyOp (bm : BudgetMonth) : Op → BudgetMonth
  | Op.addIncome n a d => bm.add_income n a d
  | Op.addExpense n a c d => bm.add_expense n a c d
  | Op.removeIncome i => { bm with incomes := bm.incomes.eraseIdx i }
  | Op.removeExpense i => { bm with expenses := bm.expenses.eraseIdx i }

/-- Apply a sequence of mutations to a fresh ledger with the given month label. -/
def applyOps (month : Option String) (ops : List Op) : BudgetMonth :=
  ops.foldl applyOp { month := month }

/-! ## Date validation (GUI, from `src/budget_manager_gui.py`) -/

/-- The Gregorian leap-year rule used by `datetime.date`. -/
def isLeapYear (y : Nat) : Bool := y % 4 == 0 && (y % 100 != 0 || y % 400 == 0)

/-- Length of month `m` of year `y`, as `datetime.date` validates it. -/
def daysInMonth (y m : Nat) : Nat :=
  if m = 2 then (if isLeapYear y then 29 else 28)
  else if m = 4 ∨ m = 6 ∨ m = 9 ∨ m = 11 then 30
  else 31

/-- Validity of `datetime.date(y, m, d)` (`MINYEAR = 1`, `MAXYEAR = 9999`);
`true` exactly when the constructor does not raise `ValueError`. -/
def dateOk (y m d : Nat) : Bool :=
  1 ≤ y && y ≤ 9999 && 1 ≤ m && m ≤ 12 && 1 ≤ d && d ≤ daysInMonth y m

/-- (from `budget_manager_gui.py`, `_valid_ym`). -/
def gui_valid_ym (s : String) : Bool :=
  s.length == 7 && charAt s 4 == '-'
    && pyIsDigit (strSlice s 0 4) && pyIsDigit (strSlice s 5 7)
    && decide (1 ≤ digitsToNat (strSlice s 5 7) ∧ digitsToNat (strSlice s 5 7) ≤ 12)

/-- (from `budget_manager_gui.py`, `_valid_ymd`) full-calendar day-level check via
`datetime.date`. The Python code raises `ValueError` at the tuple unpacking when
`split('-')` yields other than three parts; with the length and separator checks
already passed that needs a `'-'` outside positions 4 and 7, which no input of the
claims contains; such inputs are modelled as `false`. -/
def gui_valid_ymd (s : String) : Bool :=
  if s.length == 10 && charAt s 4 == '-' && charAt s 7 == '-' then
    match pySplitChar s '-' with
    | [y, m, d] =>
      pyIsDigit y && pyIsDigit m && pyIsDigit d
        && dateOk (digitsToNat y) (digitsToNat m) (digitsToNat d)
    | _ => false
  else false

/-! ## Date validation (CLI, from `src/budget_manager.py`) -/

/-- Python `s.split(c, 1)`: the part before the first `c` and the rest. -/
def splitOnce (s : String) (c : Char) : String × String :=
  let before := s.data.takeWhile (fun x => x ≠ c)
  let rest := s.data.dropWhile (fun x => x ≠ c)
  (⟨before⟩, ⟨rest.drop 1⟩)

/-- (from `budget_manager.py`, `_is_valid_ym`). -/
def is_valid_ym (s : String) : Bool :=
  if s.length == 7 && charAt s 4 == '-' then
    let p := splitOnce s '-'
    pyIsDigit p.1 && pyIsDigit p.2
      && decide (1 ≤ digitsToNat p.2 ∧ digitsToNat p.2 ≤ 12)
  else false

/-- (from `budget_manager.py`, `_is_valid_ymd`) day-level check with day only
bounded by `[1, 31]` — no month-length cross-check ("Basic validation; not
checking month/day combos"). Inputs whose `split('-')` yields other than three
parts (a `'-'` outside positions 4 and 7) make the Python code raise at the
unpacking and are modelled as `false`; no input of the claims is of that shape. -/
def is_valid_ymd (s : String) : Bool :=
  if s.length == 10 && charAt s 4 == '-' && charAt s 7 == '-' then
    match pySplitChar s '-' with
    | [y, m, d] =>
      pyIsDigit y && pyIsDigit m && pyIsDigit d
        && decide (1 ≤ digitsToNat m ∧ digitsToNat m ≤ 12
            ∧ 1 ≤ digitsToNat d ∧ digitsToNat d ≤ 31)
    | _ => false
  else false

/-! ## The GUI date normalizer and month inference -/

/-- (from `budget_manager_gui.py`, `_normalize_date_input`) `todayYm` stands for
`date.today().strftime("%Y-%m")` and `varMonth` for `self.var_month.get()`.
Returns `(normalized, error_message)`. -/
def normalize_date_input (todayYm : String) (varMonth : String) (s : String) :
    Option String × Option String :=
  let s := pyStrip s
  if s = "" then
    let m := pyStrip varMonth
    if gui_valid_ym m then (some m, none) else (none, none)
  else if gui_valid_ym s || gui_valid_ymd s then (some s, none)
  else if pyIsDigit s then
    let day := digitsToNat s
    if ¬(1 ≤ day ∧ day ≤ 31) then (none, some ("Day must be between 1 and 31."))
    else
      let base0 := pyStrip varMonth
      let base := if gui_valid_ym base0 then base0 else todayYm
      let y := digitsToNat (strSlice base 0 4)
      let m := digitsToNat (strSlice base 5 7)
      if dateOk y m day then
        (some (pad4Nat y ++ "-" ++ pad2Nat m ++ "-" ++ pad2Nat day), none)
      else
        (none, some ("Day " ++ pad2Nat day ++ " is not valid for " ++ base ++ "."))
  else (none, some ("Enter date as YYYY-MM, YYYY-MM-DD, or day-of-month (DD)."))

/-- (from `budget_manager_gui.py`, `_infer_month_from_entries`, inner `add_date`)
the `YYYY-MM` key a date contributes, if any. -/
def dateToYm (ds : Option String) : Option String :=
  match ds with
  | none => none
  | some ds =>
    if ds = "" then none
    else if gui_valid_ymd ds then some (strSlice ds 0 7)
    else if gui_valid_ym ds then some ds
    else none

/-- `counts[ym] = counts.get(ym, 0) + 1` on an insertion-ordered association
list (a new key is appended, as in a Python dict). -/
def bumpCount (l : List (String × Nat)) (k : String) : List (String × Nat) :=
  match l with
  | [] => [(k, 1)]
  | (k', c) :: rest =>
    if k' = k then (k', c + 1) :: rest else (k', c) :: bumpCount rest k

/-- The count stored for key `k` (`counts.get(k, 0)`): the first entry wins. -/
def getCount (l : List (String × Nat)) (k : String) : Nat :=
  match l with
  | [] => 0
  | (k', c) :: rest => if k' = k then c else getCount rest k

/-- The count map built from the entry dates, in iteration order. -/
def buildCounts (dates : List (Option String)) : List (String × Nat) :=
  dates.foldl (fun acc od =>
    match dateToYm od with
    | none => acc
    | some ym => bumpCount acc ym) []

/-- `p` sorts strictly before `q` under the Python key
`lambda kv: (-kv[1], kv[0])`: higher count first, then lexicographically
smaller month. -/
def keyLt (p q : String × Nat) : Prop :=
  q.2 < p.2 ∨ (p.2 = q.2 ∧ p.1 < q.1)

instance (p q : String × Nat) : Decidable (keyLt p q) := by
  unfold keyLt; infer_instance

/-- `sorted(items, key=lambda kv: (-kv[1], kv[0]))[0]`: the minimum under
`keyLt`, i.e. the first element of the stable sort. -/
def pickBest (l : List (String × Nat)) : Option (String × Nat) :=
  match l with
  | [] => none
  | x :: rest => some (rest.foldl (fun b y => if keyLt y b then y else b) x)

/-- The dates scanned by `_infer_month_from_entries`: incomes then expenses. -/
def BudgetMonth.entryDates (bm : BudgetMonth) : List (Option String) :=
  bm.incomes.map Income.date ++ bm.expenses.map Expense.date

/-- (from `budget_manager_gui.py`, `_infer_month_from_entries`). -/
def infer_month_from_entries (bm : BudgetMonth) : Option String :=
  (pickBest (buildCounts bm.entryDates)).map Prod.fst

/-- The multiset of `YYYY-MM` keys contributed by the ledger's entry dates
(day-level dates truncated to their first seven characters). -/
def monthsOf (bm : BudgetMonth) : List String :=
  bm.entryDates.filterMap dateToYm

/-! ## CSV bridge (from `budget_manager.py` `read_csv` and
`budget_manager_gui.py` `BudgetApp.save_csv`)

A CSV file is modelled at the field level (the `csv` module's quoting layer
composes to the identity on fields): a header list plus one `Row` per data
row. A `Row` field is `none` when the column is absent from the file (then
`row.get(...)` yields Python `None`); the amount cell follows the conversion
outcome convention (`none` also covers a blank or non-numeric cell, all of
which `read_csv` turns into the amount `0.0`). -/

/-- One CSV data row, keyed by the lower-cased header names `read_csv` uses. -/
structure Row where
  type : Option String := none
  name : Option String := none
  category : Option String := none
  amount : Option ℚ := none
  date : Option String := none
  year : Option String := none
  month : Option String := none
  day : Option String := none
  deriving Repr, DecidableEq

/-- The errors `read_csv` can raise: the explicit missing-header `ValueError`,
and the `ValueError` escaping from `int(month)` during date synthesis. -/
inductive CsvError where
  | missingColumns (cols : List String)
  | valueError (badText : String)
  deriving Repr, DecidableEq

/-- The required header fields, in the order `sorted({"type","name","amount"})`
produces them. -/
def requiredHeaders : List String := ["amount", "name", "type"]

/-- `sorted(required - set(headers_lower))`: the absent required fields. -/
def missingHeaders (header : List String) : List String :=
  let hl := header.map pyLower
  requiredHeaders.filter (fun r => ¬ hl.contains r)

/-- A cell as `row_l` holds it: stripped, still `none` when the column is absent. -/
def rowStr (c : Option String) : Option String := c.map pyStrip

/-- The date value for a row: the `date` cell if non-blank, else synthesized
from `year`/`month`[/`day`] when `year` has length 4 and `month` length 1–2;
`int(month)` on a non-integer text raises `ValueError`. -/
def synthDate (r : Row) : Except CsvError (Option String) :=
  let dv := rowStr r.date
  if (dv.getD ("")) ≠ "" then Except.ok dv
  else
    let y := (rowStr r.year).getD ("")
    let mo := (rowStr r.month).getD ("")
    let d := (rowStr r.day).getD ("")
    if y ≠ "" ∧ mo ≠ "" ∧ y.length = 4 ∧ (mo.length = 1 ∨ mo.length = 2) then
      if d ≠ "" ∧ pyIsDigit d then
        match pyInt? mo with
        | none => Except.error (CsvError.valueError mo)
        | some mi =>
          Except.ok (some (y ++ "-" ++ pad2Int mi ++ "-" ++ pad2Nat (digitsToNat d)))
      else
        match pyInt? mo with
        | none => Except.error (CsvError.valueError mo)
        | some mi => Except.ok (some (y ++ "-" ++ pad2Int mi))
    else Except.ok dv

/-- The row's `type` cell as compared against `"income"`/`"expense"`
(an absent cell is Python `None`, equal to neither). -/
def rtypeOf (r : Row) : String := (rowStr r.type).getD ("")

/-- Processing of one data row of `read_csv`, threading the accumulated
`(incomes, expenses)`. -/
def readRow (acc : List Income × List Expense) (r : Row) :
    Except CsvError (List Income × List Expense) := do
  let rtype := rtypeOf r
  let nameRaw := (rowStr r.name).getD ("")
  let name := pyOrS nameRaw (if rtype = "income" then ("Income") else ("Expense"))
  let amount : ℚ := r.amount.getD 0
  let dateVal ← synthDate r
  if rtype = "income" then
    pure (acc.1 ++ [{ name := name, amount := clamp_non_negative (some amount),
                      date := dateVal }], acc.2)
  else if rtype = "expense" then
    let cat := pyOrS ((rowStr r.category).getD ("")) ("Uncategorized")
    pure (acc.1, acc.2 ++ [{ name := name, amount := clamp_non_negative (some amount),
                             category := cat, date := dateVal }])
  else
    pure acc

/-- Decidable equality of `Except` results, for stating concrete outcomes. -/
def exceptDecEq {ε α : Type} [DecidableEq ε] [DecidableEq α] :
    DecidableEq (Except ε α) := fun x y =>
  match x, y with
  | Except.error a, Except.error b => decidable_of_iff (a = b) (by simp)
  | Except.ok a, Except.ok b => decidable_of_iff (a = b) (by simp)
  | Except.error _, Except.ok _ => isFalse (fun hh => Except.noConfusion hh)
  | Except.ok _, Except.error _ => isFalse (fun hh => Except.noConfusion hh)

instance {ε α : Type} [DecidableEq ε] [DecidableEq α] : DecidableEq (Except ε α) :=
  exceptDecEq

/-- (from `budget_manager.py`, `read_csv`). -/
def read_csv (header : List String) (rows : List Row) :
    Except CsvError (List Income × List Expense) :=
  if missingHeaders header ≠ [] then
    Except.error (CsvError.missingColumns (missingHeaders header))
  else rows.foldlM readRow ([], [])

/-- `round(q * 100) / 100`: the two-decimal value `f"{v:.2f}"` prints (the
half-way tie-breaking of the binary float formatter is not modelled; no claim
input sits on a half-cent). -/
def round2 (q : ℚ) : ℚ := (round (q * 100) : ℤ) / 100

/-- (from `budget_manager_gui.py`, `save_csv`) the header row written first. -/
def budget_csv_header : List String := ["type", "name", "category", "amount", "date"]

/-- The date cell `save_csv` writes: `entry.date or bm.month or ""`. -/
def effDate (month : Option String) (d : Option String) : String :=
  pyOrS (d.getD ("")) (month.getD (""))

/-- (from `budget_manager_gui.py`, `save_csv`) the row written for one income:
`["income", inc.name, "", f"{inc.amount:.2f}", inc.date or month or ""]`. -/
def saveIncomeRow (month : Option String) (inc : Income) : Row :=
  { type := some ("income"), name := some inc.name, category := some (""),
    amount := some (round2 inc.amount), date := some (effDate month inc.date) }

/-- (from `budget_manager_gui.py`, `save_csv`) the row written for one expense:
`["expense", exp.name, exp.category, f"{exp.amount:.2f}", exp.date or month or ""]`. -/
def saveExpenseRow (month : Option String) (e : Expense) : Row :=
  { type := some ("expense"), name := some e.name, category := some e.category,
    amount := some (round2 e.amount), date := some (effDate month e.date) }

/-- (from `budget_manager_gui.py`, `save_csv`) all data rows: incomes first,
then expenses. -/
def save_csv_rows (bm : BudgetMonth) : List Row :=
  bm.incomes.map (saveIncomeRow bm.month) ++ bm.expenses.map (saveExpenseRow bm.month)

/-! ## Concrete inputs used by witnesses and counterexamples -/

/-- The §8 example scenario: incomes 5000 and 0, expenses Housing 1500 and
Food 400, built through the ledger operations. -/
def exScenario : BudgetMonth :=
  applyOps none
    [Op.addIncome ("Salary") 5000 none,
     Op.addIncome ("Other") 0 none,
     Op.addExpense ("Rent") 1500 (some ("Housing")) none,
     Op.addExpense ("Groceries") 400 (some ("Food")) none]

/-- A ledger whose one income carries no date, for the round-trip date fallback. -/
def exNoDate : BudgetMonth :=
  { month := some ("2025-08"),
    incomes := [{ name := "Salary", amount := 5, date := none }] }

/-- A ledger with fully dated, trimmed entries, for the round-trip witness. -/
def exDated : BudgetMonth :=
  { month := some ("2025-08"),
    incomes := [{ name := "Salary", amount := 5000, date := some ("2025-08-01") }],
    expenses := [{ name := "Rent", amount := 1500, category := "Housing",
                   date := some ("2025-08-03") }] }

/-- The §8 month-inference example: dates 2025-08-01, 2025-08-15, 2025-09-01. -/
def exInfer : BudgetMonth :=
  { month := none,
    incomes := [{ name := "a", amount := 1, date := some ("2025-08-01") },
                { name := "b", amount := 2, date := some ("2025-08-15") }],
    expenses := [{ name := "c", amount := 3, category := "X",
                   date := some ("2025-09-01") }] }

/-- A CSV input with all required headers whose one data row has a length-2
non-numeric `month` cell and a blank `date`, so `int(month)` raises. -/
def exBadMonthHeader : List String := ["type", "name", "amount", "year", "month"]

/-- See `exBadMonthHeader`: the single `income` row with `month = "ab"`. -/
def exBadMonthRows : List Row :=
  [{ type := some ("income"), name := some ("A"), amount := some 1,
     year := some ("2025"), month := some ("ab") }]

/-- A data row with unknown `type` `"transfer"`, a blank `date`, a 4-character
`year` and a non-numeric 2-character `month` cell. -/
def exBadTypeRow : Row :=
  { type := some ("transfer"), name := some ("B"), amount := some 1,
    year := some ("2024"), month := some ("xy") }

/-- A CSV input whose second row has an unknown `type` and a faulting
`month` cell: the row is not skipped silently, `read_csv` raises. -/
def exBadTypeRows : List Row :=
  [{ type := some ("income"), name := some ("Pay"), amount := some 7 }, exBadTypeRow]

/-! ## Helper lemmas -/

theorem clamp_non_negative_nonneg (c : Option ℚ) : 0 ≤ clamp_non_negative c := by
  cases c <;> simp [clamp_non_negative]

theorem applyOp_amount_nonneg (bm : BudgetMonth) (op : Op)
    (h1 : ∀ i ∈ bm.incomes, 0 ≤ i.amount) (h2 : ∀ e ∈ bm.expenses, 0 ≤ e.amount) :
    (∀ i ∈ (applyOp bm op).incomes, 0 ≤ i.amount) ∧
    (∀ e ∈ (applyOp bm op).expenses, 0 ≤ e.amount) := by
  cases op with
  | addIncome n a d =>
    refine ⟨?_, h2⟩
    intro i hi
    simp only [applyOp, BudgetMonth.add_income, List.mem_append, List.mem_singleton] at hi
    rcases hi with hi | hi
    · exact h1 i hi
    · subst hi; exact clamp_non_negative_nonneg _
  | addExpense n a c d =>
    refine ⟨h1, ?_⟩
    intro e he
    simp only [applyOp, BudgetMonth.add_expense, List.mem_append, List.mem_singleton] at he
    rcases he with he | he
    · exact h2 e he
    · subst he; exact clamp_non_negative_nonneg _
  | removeIncome i =>
    exact ⟨fun x hx => h1 x (List.eraseIdx_subset _ _ hx), h2⟩
  | removeExpense i =>
    exact ⟨h1, fun x hx => h2 x (List.eraseIdx_subset _ _ hx)⟩

theorem foldl_applyOp_amount_nonneg (ops : List Op) (bm : BudgetMonth)
    (h1 : ∀ i ∈ bm.incomes, 0 ≤ i.amount) (h2 : ∀ e ∈ bm.expenses, 0 ≤ e.amount) :
    (∀ i ∈ (ops.foldl applyOp bm).incomes, 0 ≤ i.amount) ∧
    (∀ e ∈ (ops.foldl applyOp bm).expenses, 0 ≤ e.amount) := by
  induction ops generalizing bm with
  | nil => exact ⟨h1, h2⟩
  | cons op rest ih =>
    obtain ⟨g1, g2⟩ := applyOp_amount_nonneg bm op h1 h2
    exact ih (applyOp bm op) g1 g2

theorem bucketAdd_snd_sum (l : List (String × ℚ)) (k : String) (v : ℚ) :
    ((bucketAdd l k v).map Prod.snd).sum = (l.map Prod.snd).sum + v := by
  induction l with
  | nil => simp [bucketAdd]
  | cons p rest ih =>
    obtain ⟨k', v'⟩ := p
    by_cases h : k' = k
    · simp [bucketAdd, h]; ring
    · simp [bucketAdd, h, ih]; ring

theorem foldl_bucketAdd_snd_sum (es : List Expense) (acc : List (String × ℚ)) :
    (((es.foldl (fun a e => bucketAdd a e.category e.amount) acc).map Prod.snd).sum)
      = (acc.map Prod.snd).sum + (es.map Expense.amount).sum := by
  induction es generalizing acc with
  | nil => simp
  | cons e rest ih =>
    simp only [List.foldl_cons, List.map_cons, List.sum_cons, ih, bucketAdd_snd_sum]
    ring

/-! ## Claim C10 -/

/-- C10: for every ledger state, the values of `expenses_by_category()` sum to
`total_expenses()`: grouping by category preserves the total of expense
amounts. -/
theorem c10_bycategory_sum (bm : BudgetMonth) :
    (bm.expenses_by_category.map Prod.snd).sum = bm.total_expenses := by
  unfold BudgetMonth.expenses_by_category BudgetMonth.total_expenses
  simpa using foldl_bucketAdd_snd_sum bm.expenses []

/-! ## Claim C5 -/

/-- C5: for every ledger state and any selector, `expense_percentages_by_category`
keeps exactly the key set (in fact the key list) of `expenses_by_category`, and
when the selected base total is `≤ 0` every returned value is exactly `0.0`. -/
theorem c5_percentage_keys (bm : BudgetMonth) (rel : String) :
    (bm.expense_percentages_by_category rel).map Prod.fst
      = bm.expenses_by_category.map Prod.fst ∧
    (bm.percent_base rel ≤ 0 →
      ∀ p ∈ bm.expense_percentages_by_category rel, p.2 = 0) := by
  unfold BudgetMonth.expense_percentages_by_category
  by_cases h : bm.percent_base rel ≤ 0
  · constructor
    · simp [h]
    · intro _ p hp
      simp only [if_pos h, List.mem_map] at hp
      obtain ⟨q, _, rfl⟩ := hp
      rfl
  · constructor
    · simp [h]
    · intro hc
      exact absurd hc h

/-- Witness for C5 at a ledger with one expense and zero income. -/
theorem c5_percentage_keys_witness :
    (("Housing", (0 : ℚ)) ∈
        BudgetMonth.expense_percentages_by_category
          { month := none, incomes := [],
            expenses := [{ name := "Rent", amount := 5, category := "Housing" }] }
          ("income")) ∧
      (("Housing", (0 : ℚ)).2 = 0) := by
  refine ⟨by decide, ?_⟩
  exact (c5_percentage_keys
    { month := none, incomes := [],
      expenses := [{ name := "Rent", amount := 5, category := "Housing" }] }
    ("income")).2 (by decide) _ (by decide)

/-! ## Claim C3 -/

/-- C3: `profit_margin()` is exactly `0.0` whenever `total_income() ≤ 0`, and
otherwise equals `net() / total_income() * 100` (stated multiplicatively, which
also shows the division is by a nonzero base); the same guard holds for the
mobile `totals`. Totality of these rational-valued functions is the model of
"never raises and never returns NaN or Infinity". -/
theorem c3_profit_margin_guard (bm : BudgetMonth) (mi me : List (Option ℚ)) :
    (bm.total_income ≤ 0 → bm.profit_margin = 0) ∧
    (0 < bm.total_income → bm.profit_margin * bm.total_income = bm.net * 100) ∧
    ((mobile_totals mi me).1 ≤ 0 → (mobile_totals mi me).2.2.2 = 0) ∧
    (0 < (mobile_totals mi me).1 →
      (mobile_totals mi me).2.2.2 * (mobile_totals mi me).1
        = (mobile_totals mi me).2.2.1 * 100) := by
  refine ⟨fun h => ?_, fun h => ?_, fun h => ?_, fun h => ?_⟩
  · simp [BudgetMonth.profit_margin, h]
  · have hne : bm.total_income ≠ 0 := ne_of_gt h
    rw [BudgetMonth.profit_margin, if_neg (not_le.mpr h)]
    field_simp
  · simp only [mobile_totals] at h ⊢
    rw [if_neg (not_lt.mpr h)]
  · simp only [mobile_totals] at h ⊢
    rw [if_pos h]
    have hne : (mi.map parse_amount).sum ≠ 0 := ne_of_gt h
    field_simp

/-- Witness for C3: the empty ledger has margin `0`; the §8 scenario has a
positive income and satisfies the multiplicative division identity. -/
theorem c3_profit_margin_guard_witness :
    BudgetMonth.profit_margin { month := none, incomes := [], expenses := [] } = 0 ∧
    BudgetMonth.profit_margin exScenario * BudgetMonth.total_income exScenario
      = BudgetMonth.net exScenario * 100 := by
  constructor
  · exact (c3_profit_margin_guard { month := none, incomes := [], expenses := [] }
      [] []).1 (by norm_num [BudgetMonth.total_income])
  · exact (c3_profit_margin_guard exScenario [] []).2.1 (by norm_num [exScenario,
      applyOps, applyOp, BudgetMonth.add_income, BudgetMonth.add_expense,
      BudgetMonth.total_income, clamp_non_negative])

theorem readRow_amount_nonneg (acc : List Income × List Expense) (r : Row)
    (out : List Income × List Expense) (h : readRow acc r = Except.ok out)
    (h1 : ∀ i ∈ acc.1, 0 ≤ i.amount) (h2 : ∀ e ∈ acc.2, 0 ≤ e.amount) :
    (∀ i ∈ out.1, 0 ≤ i.amount) ∧ (∀ e ∈ out.2, 0 ≤ e.amount) := by
  unfold readRow at h
  cases hs : synthDate r with
  | error err => simp [hs, bind, Except.bind] at h
  | ok dv =>
    simp only [hs, bind, Except.bind, pure, Except.pure] at h
    split_ifs at h with ht1 ht2 <;>
      [skip; skip; (cases h; exact ⟨h1, h2⟩)]
    · cases h
      refine ⟨?_, h2⟩
      intro i hi
      rcases List.mem_append.mp hi with hi | hi
      · exact h1 i hi
      · rcases List.mem_singleton.mp hi with rfl
        exact clamp_non_negative_nonneg _
    · cases h
      refine ⟨h1, ?_⟩
      intro e he
      rcases List.mem_append.mp he with he | he
      · exact h2 e he
      · rcases List.mem_singleton.mp he with rfl
        exact clamp_non_negative_nonneg _

theorem foldlM_readRow_amount_nonneg (rows : List Row)
    (acc : List Income × List Expense) (out : List Income × List Expense)
    (h : rows.foldlM readRow acc = Except.ok out)
    (h1 : ∀ i ∈ acc.1, 0 ≤ i.amount) (h2 : ∀ e ∈ acc.2, 0 ≤ e.amount) :
    (∀ i ∈ out.1, 0 ≤ i.amount) ∧ (∀ e ∈ out.2, 0 ≤ e.amount) := by
  induction rows generalizing acc with
  | nil =>
    simp only [List.foldlM_nil, pure, Except.pure, Except.ok.injEq] at h
    subst h; exact ⟨h1, h2⟩
  | cons r rest ih =>
    rw [List.foldlM_cons] at h
    cases hr : readRow acc r with
    | error err => rw [hr] at h; simp [bind, Except.bind] at h
    | ok acc' =>
      rw [hr] at h
      simp only [bind, Except.bind] at h
      obtain ⟨g1, g2⟩ := readRow_amount_nonneg acc r acc' hr h1 h2
      exact ih acc' h g1 g2

/-! ## Claim C1 (corrected) -/

/-- C1 counterexample: the mobile amount parser `parse_amount` does not clamp a
negative numeric input — on `"-5"` (conversion outcome `some (-5)`) it returns
`-5.0`, a negative value, contradicting the claim that every input yields a
non-negative float. -/
theorem c1_counterexample_mobile_negative : parse_amount (some (-5)) < 0 := by
  norm_num [parse_amount]

/-- C1 amended: the desktop clamp `_clamp_non_negative` returns a non-negative
value on every input, `0.0` on conversion failure and `0.0` on any negative
value, so every entry stored through the `BudgetMonth` operations or through
`read_csv` has `amount ≥ 0`; the mobile `parse_amount` clamps only conversion
failure (`0.0`), passing negative numbers through. -/
theorem c1_amended_clamp :
    (∀ c : Option ℚ, 0 ≤ clamp_non_negative c) ∧
    clamp_non_negative none = 0 ∧
    (∀ v : ℚ, v < 0 → clamp_non_negative (some v) = 0) ∧
    (∀ (month : Option String) (ops : List Op),
      (∀ i ∈ (applyOps month ops).incomes, 0 ≤ i.amount) ∧
      (∀ e ∈ (applyOps month ops).expenses, 0 ≤ e.amount)) ∧
    (∀ (header : List String) (rows : List Row) (incs : List Income)
        (exps : List Expense), read_csv header rows = Except.ok (incs, exps) →
      (∀ i ∈ incs, 0 ≤ i.amount) ∧ (∀ e ∈ exps, 0 ≤ e.amount)) ∧
    parse_amount none = 0 := by
  refine ⟨clamp_non_negative_nonneg, rfl, ?_, ?_, ?_, rfl⟩
  · intro v hv
    simp [clamp_non_negative, le_of_lt hv]
  · intro month ops
    exact foldl_applyOp_amount_nonneg ops { month := month }
      (by intro i hi; cases hi) (by intro e he; cases he)
  · intro header rows incs exps h
    unfold read_csv at h
    split_ifs at h
    exact foldlM_readRow_amount_nonneg rows ([], []) (incs, exps) h
      (by intro i hi; cases hi) (by intro e he; cases he)

/-- Witness for C1 amended, at concrete inputs: a negative conversion outcome
clamps to `0`, a failed conversion clamps to `0`, and the §8 scenario ledger
built by four operations has only non-negative stored amounts. -/
theorem c1_amended_clamp_witness :
    clamp_non_negative (some (-3)) = 0 ∧
    (0 : ℚ) ≤ clamp_non_negative (some 7) ∧
    0 ≤ (exScenario.incomes.getD 1 { name := "", amount := -1, date := none }).amount := by
  refine ⟨c1_amended_clamp.2.2.1 (-3) (by norm_num), c1_amended_clamp.1 (some 7), ?_⟩
  exact (c1_amended_clamp.2.2.2.1 none
    [Op.addIncome ("Salary") 5000 none,
     Op.addIncome ("Other") 0 none,
     Op.addExpense ("Rent") 1500 (some ("Housing")) none,
     Op.addExpense ("Groceries") 400 (some ("Food")) none]).1 _ (by decide)

/-! ## Claim C2 (corrected) -/

/-- When the GUI month field holds a valid `YYYY-MM`, the normalizer never
consults today's date. -/
theorem normalize_today_irrelevant (t1 t2 varMonth s : String)
    (h : gui_valid_ym (pyStrip varMonth) = true) :
    normalize_date_input t1 varMonth s = normalize_date_input t2 varMonth s := by
  unfold normalize_date_input
  simp only [h, if_true]

/-- C2 counterexample: with base month `"2025-02"`, the GUI date normalizer
does NOT accept the direct full-date input `"2025-02-31"` — its day-level
validity check `_valid_ymd` validates against the real calendar via
`datetime.date`, so the input is rejected with the generic format error
(`today` fixed to `"2025-10"`; the base month is valid so it is never used). -/
theorem c2_counterexample_direct_date :
    normalize_date_input ("2025-10") ("2025-02") ("2025-02-31")
      = (none, some ("Enter date as YYYY-MM, YYYY-MM-DD, or day-of-month (DD).")) ∧
    normalize_date_input ("2025-10") ("2025-02") ("2025-02-31")
      ≠ (some ("2025-02-31"), none) := by
  exact ⟨by decide, by decide⟩

/-- C2 amended: with base month `"2025-02"`, the day-of-month input `"31"`
fails with the invalid-day error, and the direct input `"2025-02-31"` is
likewise rejected by the GUI normalizer (whose `_valid_ymd` cross-checks the
month length); the lenient day-in-[1,31] path with no month-length cross-check
belongs to the CLI validator `_is_valid_ymd`, which accepts `"2025-02-31"`
while the GUI `_valid_ymd` rejects it — that is where the asymmetry lives. -/
theorem c2_amended_asymmetry (today : String) :
    normalize_date_input today ("2025-02") ("31")
      = (none, some ("Day 31 is not valid for 2025-02.")) ∧
    normalize_date_input today ("2025-02") ("2025-02-31")
      = (none, some ("Enter date as YYYY-MM, YYYY-MM-DD, or day-of-month (DD).")) ∧
    is_valid_ymd ("2025-02-31") = true ∧
    gui_valid_ymd ("2025-02-31") = false := by
  refine ⟨?_, ?_, by decide, by decide⟩
  · rw [normalize_today_irrelevant today ("2025-10") ("2025-02") ("31") (by decide)]
    decide
  · rw [normalize_today_irrelevant today ("2025-10") ("2025-02") ("2025-02-31") (by decide)]
    decide

/-- Witness for C2 amended at a concrete `today`. -/
theorem c2_amended_asymmetry_witness :
    is_valid_ymd ("2025-02-31") = true ∧ gui_valid_ymd ("2025-02-31") = false :=
  ⟨(c2_amended_asymmetry ("2025-09")).2.2.1, (c2_amended_asymmetry ("2025-09")).2.2.2⟩

/-! ## Claim C4 -/

/-- The §8 scenario ledger, evaluated: blank-name defaults do not fire, the
two incomes store 5000 and 0, the two expenses their categories and amounts. -/
theorem exScenario_eval : exScenario =
    { month := none,
      incomes := [{ name := "Salary", amount := 5000, date := none },
                  { name := "Other", amount := 0, date := none }],
      expenses := [{ name := "Rent", amount := 1500, category := "Housing", date := none },
                   { name := "Groceries", amount := 400, category := "Food", date := none }] } := by
  decide

/-- C4: on every ledger reachable by additions and removals, `total_income`
is the sum of the income amounts, `total_expenses` the sum of the expense
amounts and `net` their difference; and the §8 example scenario (incomes 5000
and 0, expenses Housing 1500 and Food 400) yields exactly the stated totals,
margin and income-relative percentages. -/
theorem c4_totals (month : Option String) (ops : List Op) :
    (applyOps month ops).net
        = (applyOps month ops).total_income - (applyOps month ops).total_expenses ∧
    (applyOps month ops).total_income
        = ((applyOps month ops).incomes.map Income.amount).sum ∧
    (applyOps month ops).total_expenses
        = ((applyOps month ops).expenses.map Expense.amount).sum ∧
    exScenario.total_income = 5000 ∧
    exScenario.total_expenses = 1900 ∧
    exScenario.net = 3100 ∧
    exScenario.profit_margin = 62 ∧
    exScenario.expense_percentages_by_category ("income")
        = [("Housing", 30), ("Food", 8)] := by
  refine ⟨rfl, rfl, rfl, ?_, ?_, ?_, ?_, ?_⟩ <;>
    · rw [exScenario_eval]
      norm_num [BudgetMonth.total_income, BudgetMonth.total_expenses,
        BudgetMonth.net, BudgetMonth.profit_margin, BudgetMonth.percent_base,
        BudgetMonth.expense_percentages_by_category, BudgetMonth.expenses_by_category,
        bucketAdd, if_neg (show ("Housing" : String) ≠ ("Food" : String) from by decide)]

/-! ## CSV helper lemmas -/

theorem synthDate_error_shape (r : Row) (e : CsvError)
    (h : synthDate r = Except.error e) : ∃ s, e = CsvError.valueError s := by
  simp only [synthDate] at h
  split_ifs at h
  all_goals
    try rcases hm : pyInt? ((rowStr r.month).getD ("")) with _ | mi <;> rw [hm] at h
  all_goals simp only [Except.error.injEq] at h
  all_goals first
    | exact ⟨_, h.symm⟩
    | exact absurd h (by simp)

theorem readRow_error_shape (acc : List Income × List Expense) (r : Row)
    (e : CsvError) (h : readRow acc r = Except.error e) :
    ∃ s, e = CsvError.valueError s := by
  unfold readRow at h
  cases hs : synthDate r with
  | error err =>
    simp only [hs, bind, Except.bind] at h
    have he := Except.error.inj h
    subst he
    exact synthDate_error_shape r _ hs
  | ok dv =>
    simp only [hs, bind, Except.bind, pure, Except.pure] at h
    split_ifs at h

theorem readRow_ok_of_synth (acc : List Income × List Expense) (r : Row)
    (h3 : (synthDate r).isOk = true) : ∃ acc', readRow acc r = Except.ok acc' := by
  unfold readRow
  cases hs : synthDate r with
  | error err => rw [hs] at h3; cases h3
  | ok dv =>
    simp only [hs, bind, Except.bind, pure, Except.pure]
    split_ifs <;> exact ⟨_, rfl⟩

theorem foldlM_readRow_no_missing (rows : List Row)
    (acc : List Income × List Expense) (cols : List String) :
    rows.foldlM readRow acc ≠ Except.error (CsvError.missingColumns cols) := by
  induction rows generalizing acc with
  | nil => simp [List.foldlM_nil, pure, Except.pure]
  | cons r rest ih =>
    rw [List.foldlM_cons]
    cases hr : readRow acc r with
    | error e =>
      simp only [bind, Except.bind]
      intro hc
      obtain ⟨s, rfl⟩ := readRow_error_shape acc r e hr
      exact CsvError.noConfusion (Except.error.inj hc)
    | ok acc' =>
      simp only [bind, Except.bind]
      exact ih acc'

theorem foldlM_readRow_ok (rows : List Row) (acc : List Income × List Expense)
    (hall : ∀ r ∈ rows, (synthDate r).isOk = true) :
    (rows.foldlM readRow acc).isOk = true := by
  induction rows generalizing acc with
  | nil => simp [List.foldlM_nil, pure, Except.pure, Except.isOk, Except.toBool]
  | cons r rest ih =>
    rw [List.foldlM_cons]
    obtain ⟨acc', hr⟩ := readRow_ok_of_synth acc r (hall r (List.mem_cons_self r rest))
    rw [hr]
    simp only [bind, Except.bind]
    exact ih acc' (fun q hq => hall q (List.mem_cons_of_mem r hq))

theorem readRow_skip (acc : List Income × List Expense) (r : Row)
    (h1 : rtypeOf r ≠ "income") (h2 : rtypeOf r ≠ "expense")
    (h3 : (synthDate r).isOk = true) : readRow acc r = Except.ok acc := by
  unfold readRow
  cases hs : synthDate r with
  | error err => rw [hs] at h3; cases h3
  | ok dv =>
    simp only [hs, bind, Except.bind, pure, Except.pure]
    rw [if_neg h1, if_neg h2]

/-! ## Claim C7 (corrected) -/

/-- C7 counterexample: a CSV whose header has all three required fields can
still fail to parse — with a blank `date`, a 4-character `year` and a
2-character non-numeric `month` cell, `int(month)` raises `ValueError`, so
"parsing succeeds whenever all three are present" is false. -/
theorem c7_counterexample_month_valueerror :
    missingHeaders exBadMonthHeader = [] ∧
    read_csv exBadMonthHeader exBadMonthRows
      = Except.error (CsvError.valueError ("ab")) := by
  exact ⟨by decide, by decide⟩

/-- C7 amended: parsing fails with `MissingColumns` naming exactly the absent
required fields (`type`, `name`, `amount`, matched case-insensitively) if and
only if at least one of them is missing — in particular a header missing only
`amount` fails naming `["amount"]` — and when all three are present the
result is never `MissingColumns` and parsing returns entry lists unless a
data row's `year`/`month` date synthesis raises on a non-integer month. -/
theorem c7_amended_missing_columns (header : List String) (rows : List Row) :
    (missingHeaders header ≠ [] →
      read_csv header rows = Except.error (CsvError.missingColumns (missingHeaders header))) ∧
    (∀ h, h ∈ missingHeaders header ↔ h ∈ requiredHeaders ∧ h ∉ header.map pyLower) ∧
    (missingHeaders header = [] →
      (∀ cols, read_csv header rows ≠ Except.error (CsvError.missingColumns cols)) ∧
      ((∀ r ∈ rows, (synthDate r).isOk = true) → (read_csv header rows).isOk = true)) ∧
    missingHeaders ["type", "name", "category", "date"] = ["amount"] := by
  refine ⟨fun hm => ?_, fun h => ?_, fun hm => ⟨fun cols => ?_, fun hall => ?_⟩, by decide⟩
  · rw [read_csv, if_pos hm]
  · simp [missingHeaders, List.mem_filter, List.contains_iff_exists_mem_beq]
  · rw [read_csv, if_neg (by simp [hm])]
    exact foldlM_readRow_no_missing rows ([], []) cols
  · rw [read_csv, if_neg (by simp [hm])]
    exact foldlM_readRow_ok rows ([], []) hall

/-- Witness for C7 amended: a header missing only `amount` fails naming
`["amount"]`, and a complete-header file with one benign row parses. -/
theorem c7_amended_missing_columns_witness :
    read_csv ["type", "name", "category", "date"] []
      = Except.error (CsvError.missingColumns ["amount"]) ∧
    (read_csv ["type", "name", "amount"]
      [{ type := some ("income"), name := some ("Pay"), amount := some 7 }]).isOk = true := by
  constructor
  · exact (by decide : missingHeaders ["type", "name", "category", "date"]
        = ["amount"]) ▸ (c7_amended_missing_columns ["type", "name", "category", "date"] []).1
      (by decide)
  · exact ((c7_amended_missing_columns ["type", "name", "amount"]
      [{ type := some ("income"), name := some ("Pay"), amount := some 7 }]).2.2.1
      (by decide)).2 (by decide)

/-! ## Claim C8 (corrected) -/

/-- C8 counterexample: a data row with unknown type `"transfer"` is not always
skipped silently — when its blank `date` triggers the `year`/`month` synthesis
and the `month` cell is not an integer, `read_csv` raises `ValueError` for the
whole file (while the same file without that row parses fine). -/
theorem c8_counterexample_skip_raises :
    rtypeOf exBadTypeRow ≠ ("income") ∧
    rtypeOf exBadTypeRow ≠ ("expense") ∧
    read_csv exBadMonthHeader exBadTypeRows = Except.error (CsvError.valueError ("xy")) ∧
    (read_csv exBadMonthHeader (exBadTypeRows.take 1)).isOk = true := by
  exact ⟨by decide, by decide, by decide, by decide⟩

/-- C8 amended: a data row whose `type` is neither `income` nor `expense` is
skipped, contributing nothing, and the remaining rows parse exactly as if the
row were absent — provided the row's date synthesis does not fault; a skipped
row whose synthesis hits a non-integer `month` makes `read_csv` raise. -/
theorem c8_amended_skip (header : List String) (rows1 rows2 : List Row) (r : Row)
    (h1 : rtypeOf r ≠ "income") (h2 : rtypeOf r ≠ "expense")
    (h3 : (synthDate r).isOk = true) :
    read_csv header (rows1 ++ r :: rows2) = read_csv header (rows1 ++ rows2) := by
  unfold read_csv
  split_ifs with hm
  · rfl
  · rw [List.foldlM_append, List.foldlM_append]
    have hstep : ∀ acc : List Income × List Expense,
        (r :: rows2).foldlM readRow acc = rows2.foldlM readRow acc := by
      intro acc
      rw [List.foldlM_cons, readRow_skip acc r h1 h2 h3]
      simp only [bind, Except.bind]
    simp only [hstep]

/-- Witness for C8 amended: dropping a concrete `transfer` row (with a benign
date cell) from a two-row file leaves the parse unchanged. -/
theorem c8_amended_skip_witness :
    read_csv ["type", "name", "amount"]
        ([{ type := some ("income"), name := some ("Pay"), amount := some 7 }] ++
          { type := some ("transfer"), name := some ("B"), amount := some 1,
            date := some ("2024-01") } :: [])
      = read_csv ["type", "name", "amount"]
          ([{ type := some ("income"), name := some ("Pay"), amount := some 7 }] ++ []) :=
  c8_amended_skip ["type", "name", "amount"]
    [{ type := some ("income"), name := some ("Pay"), amount := some 7 }] []
    { type := some ("transfer"), name := some ("B"), amount := some 1,
      date := some ("2024-01") }
    (by decide) (by decide) (by decide)

/-! ## Round-trip helper lemmas (claim C6) -/

theorem round2_nonneg (q : ℚ) (h : 0 ≤ q) : 0 ≤ round2 q := by
  unfold round2
  have h2 : (0 : ℤ) ≤ round (q * 100) := by
    rw [round_eq]
    exact Int.floor_nonneg.mpr (by linarith)
  exact div_nonneg (by exact_mod_cast h2) (by norm_num)

theorem pyStrip_effDate (month d : Option String)
    (hm : pyStrip (month.getD ("")) = month.getD (""))
    (hd : pyStrip (d.getD ("")) = d.getD ("")) :
    pyStrip (effDate month d) = effDate month d := by
  unfold effDate pyOrS
  split_ifs with h
  · exact hm
  · exact hd

theorem synthDate_dateCell (r : Row) (s : String) (hr : r.date = some s)
    (hy : r.year = none) (hmo : r.month = none) (hs : pyStrip s = s) :
    synthDate r = Except.ok (some s) := by
  simp only [synthDate, rowStr, hr, hy, hmo, Option.map_some', Option.map_none',
    Option.getD_some, Option.getD_none, hs]
  split_ifs with h1 h2 h3
  · rfl
  · exact absurd h2 (by simp)
  · exact absurd h2 (by simp)
  · rfl

theorem rtypeOf_saveIncomeRow (m : Option String) (inc : Income) :
    rtypeOf (saveIncomeRow m inc) = "income" := by
  simp only [rtypeOf, saveIncomeRow, rowStr, Option.map_some', Option.getD_some]
  decide

theorem rtypeOf_saveExpenseRow (m : Option String) (e : Expense) :
    rtypeOf (saveExpenseRow m e) = "expense" := by
  simp only [rtypeOf, saveExpenseRow, rowStr, Option.map_some', Option.getD_some]
  decide

theorem readRow_saveIncomeRow (m : Option String) (inc : Income)
    (acc : List Income × List Expense)
    (hname : pyStrip inc.name = inc.name) (hne : inc.name ≠ "")
    (hamt : 0 ≤ inc.amount)
    (hdate : pyStrip (effDate m inc.date) = effDate m inc.date) :
    readRow acc (saveIncomeRow m inc)
      = Except.ok (acc.1 ++ [{ name := inc.name, amount := round2 inc.amount,
                               date := some (effDate m inc.date) }], acc.2) := by
  have hsynth : synthDate (saveIncomeRow m inc)
      = Except.ok (some (effDate m inc.date)) :=
    synthDate_dateCell _ _ rfl rfl rfl hdate
  have hn : (rowStr (saveIncomeRow m inc).name).getD ("") = inc.name := by
    simp [saveIncomeRow, rowStr, hname]
  have ha : (saveIncomeRow m inc).amount.getD 0 = round2 inc.amount := by
    simp [saveIncomeRow]
  simp only [readRow, hsynth, bind, Except.bind, pure, Except.pure,
    rtypeOf_saveIncomeRow, if_pos, hn, ha, reduceIte]
  simp only [pyOrS, if_neg hne, clamp_non_negative]
  rw [max_eq_right (round2_nonneg _ hamt)]

theorem readRow_saveExpenseRow (m : Option String) (e : Expense)
    (acc : List Income × List Expense)
    (hname : pyStrip e.name = e.name) (hne : e.name ≠ "")
    (hamt : 0 ≤ e.amount)
    (hcat : pyStrip e.category = e.category) (hcne : e.category ≠ "")
    (hdate : pyStrip (effDate m e.date) = effDate m e.date) :
    readRow acc (saveExpenseRow m e)
      = Except.ok (acc.1, acc.2 ++ [{ name := e.name, amount := round2 e.amount,
                                      category := e.category,
                                      date := some (effDate m e.date) }]) := by
  have hsynth : synthDate (saveExpenseRow m e)
      = Except.ok (some (effDate m e.date)) :=
    synthDate_dateCell _ _ rfl rfl rfl hdate
  have hn : (rowStr (saveExpenseRow m e).name).getD ("") = e.name := by
    simp [saveExpenseRow, rowStr, hname]
  have hc : (rowStr (saveExpenseRow m e).category).getD ("") = e.category := by
    simp [saveExpenseRow, rowStr, hcat]
  have ha : (saveExpenseRow m e).amount.getD 0 = round2 e.amount := by
    simp [saveExpenseRow]
  have hti : rtypeOf (saveExpenseRow m e) ≠ "income" := by
    rw [rtypeOf_saveExpenseRow]; decide
  simp only [readRow, hsynth, bind, Except.bind, pure, Except.pure,
    if_neg hti, rtypeOf_saveExpenseRow, if_pos, hn, hc, ha, reduceIte]
  simp only [pyOrS, if_neg hne, if_neg hcne, clamp_non_negative]
  rw [max_eq_right (round2_nonneg _ hamt),
    if_neg (show ¬ (("expense" : String) = ("income" : String)) from by decide)]

theorem foldlM_save_incomes (m : Option String) (incs : List Income)
    (acc : List Income × List Expense)
    (hall : ∀ i ∈ incs, pyStrip i.name = i.name ∧ i.name ≠ "" ∧ 0 ≤ i.amount ∧
      pyStrip (effDate m i.date) = effDate m i.date) :
    (incs.map (saveIncomeRow m)).foldlM readRow acc
      = Except.ok (acc.1 ++ incs.map (fun i =>
          { name := i.name, amount := round2 i.amount,
            date := some (effDate m i.date) }), acc.2) := by
  induction incs generalizing acc with
  | nil => simp [List.foldlM_nil, pure, Except.pure]
  | cons i rest ih =>
    obtain ⟨h1, h2, h3, h4⟩ := hall i (List.mem_cons_self i rest)
    rw [List.map_cons, List.foldlM_cons, readRow_saveIncomeRow m i acc h1 h2 h3 h4]
    simp only [bind, Except.bind]
    exact (ih _ (fun j hj => hall j (List.mem_cons_of_mem i hj))).trans (by simp)

theorem foldlM_save_expenses (m : Option String) (exps : List Expense)
    (acc : List Income × List Expense)
    (hall : ∀ e ∈ exps, pyStrip e.name = e.name ∧ e.name ≠ "" ∧ 0 ≤ e.amount ∧
      pyStrip e.category = e.category ∧ e.category ≠ "" ∧
      pyStrip (effDate m e.date) = effDate m e.date) :
    (exps.map (saveExpenseRow m)).foldlM readRow acc
      = Except.ok (acc.1, acc.2 ++ exps.map (fun e =>
          { name := e.name, amount := round2 e.amount, category := e.category,
            date := some (effDate m e.date) })) := by
  induction exps generalizing acc with
  | nil => simp [List.foldlM_nil, pure, Except.pure]
  | cons e rest ih =>
    obtain ⟨h1, h2, h3, h4, h5, h6⟩ := hall e (List.mem_cons_self e rest)
    rw [List.map_cons, List.foldlM_cons, readRow_saveExpenseRow m e acc h1 h2 h3 h4 h5 h6]
    simp only [bind, Except.bind]
    exact (ih _ (fun j hj => hall j (List.mem_cons_of_mem e hj))).trans (by simp)

/-! ## Claim C6 (corrected) -/

/-- C6 amended: serializing a ledger of well-formed entries (stripped non-empty
names and categories, non-negative amounts, stripped dates and month label) and
re-parsing yields, entry for entry in order, identical `name`, the amount
rounded to two decimals, identical `category` for expenses, and as date the
serialized cell `entry.date or month or ""`; in particular the date is
identical whenever the entry carries a non-empty date, while a dateless entry
comes back carrying the period's month (or `""`) instead of no date. -/
theorem c6_amended_roundtrip (bm : BudgetMonth)
    (hmonth : pyStrip (bm.month.getD ("")) = bm.month.getD (""))
    (hinc : ∀ i ∈ bm.incomes, pyStrip i.name = i.name ∧ i.name ≠ "" ∧ 0 ≤ i.amount ∧
      pyStrip (i.date.getD ("")) = i.date.getD (""))
    (hexp : ∀ e ∈ bm.expenses, pyStrip e.name = e.name ∧ e.name ≠ "" ∧ 0 ≤ e.amount ∧
      pyStrip e.category = e.category ∧ e.category ≠ "" ∧
      pyStrip (e.date.getD ("")) = e.date.getD ("")) :
    read_csv budget_csv_header (save_csv_rows bm)
      = Except.ok
          (bm.incomes.map (fun i => { name := i.name, amount := round2 i.amount,
                                      date := some (effDate bm.month i.date) }),
           bm.expenses.map (fun e => { name := e.name, amount := round2 e.amount,
                                       category := e.category,
                                       date := some (effDate bm.month e.date) })) ∧
    (∀ i ∈ bm.incomes, ∀ d, i.date = some d → d ≠ "" → effDate bm.month i.date = d) ∧
    (∀ e ∈ bm.expenses, ∀ d, e.date = some d → d ≠ "" → effDate bm.month e.date = d) := by
  refine ⟨?_, ?_, ?_⟩
  · rw [read_csv, if_neg (by decide), save_csv_rows, List.foldlM_append]
    rw [foldlM_save_incomes bm.month bm.incomes ([], [])
      (fun i hi => by
        obtain ⟨h1, h2, h3, h4⟩ := hinc i hi
        exact ⟨h1, h2, h3, pyStrip_effDate bm.month i.date hmonth h4⟩)]
    simp only [bind, Except.bind]
    rw [foldlM_save_expenses bm.month bm.expenses _
      (fun e he => by
        obtain ⟨h1, h2, h3, h4, h5, h6⟩ := hexp e he
        exact ⟨h1, h2, h3, h4, h5, pyStrip_effDate bm.month e.date hmonth h6⟩)]
    simp
  · intro i _ d hd hne
    rw [effDate, hd]
    simp [pyOrS, hne]
  · intro e _ d hd hne
    rw [effDate, hd]
    simp [pyOrS, hne]

/-- Witness for C6 amended at a fully dated two-entry ledger. -/
theorem c6_amended_roundtrip_witness :
    read_csv budget_csv_header (save_csv_rows exDated)
      = Except.ok
          (exDated.incomes.map (fun i => { name := i.name, amount := round2 i.amount,
                                           date := some (effDate exDated.month i.date) }),
           exDated.expenses.map (fun e => { name := e.name, amount := round2 e.amount,
                                            category := e.category,
                                            date := some (effDate exDated.month e.date) })) :=
  (c6_amended_roundtrip exDated (by decide) (by decide) (by decide)).1

/-- C6 counterexample: re-parsing is NOT date-identical in general — an income
with no date in a ledger whose month is `"2025-08"` comes back with date
`some "2025-08"`, not `none`. -/
theorem c6_counterexample_date_fallback :
    read_csv budget_csv_header (save_csv_rows exNoDate)
      = Except.ok ([{ name := "Salary", amount := 5, date := some ("2025-08") }], []) ∧
    exNoDate.incomes.map Income.date = [none] ∧
    some ("2025-08") ≠ (none : Option String) := by
  refine ⟨?_, by decide, by decide⟩
  rw [read_csv, if_neg (by decide), save_csv_rows, List.foldlM_append]
  rw [foldlM_save_incomes exNoDate.month exNoDate.incomes ([], []) (by decide)]
  simp only [bind, Except.bind]
  rw [foldlM_save_expenses exNoDate.month exNoDate.expenses _ (by simp [exNoDate])]
  have h5 : round2 5 = 5 := by
    rw [round2, show ((5 : ℚ) * 100) = ((500 : ℤ) : ℚ) from by norm_num,
      round_intCast]
    norm_num
  simp [exNoDate, effDate, pyOrS, h5]

/-! ## Month-inference helper lemmas (claim C9) -/

theorem keyLt_irrefl (p : String × Nat) : ¬ keyLt p p := by
  simp [keyLt]

theorem keyLt_trans {a b c : String × Nat} (h1 : keyLt a b) (h2 : keyLt b c) :
    keyLt a c := by
  rcases h1 with h1 | ⟨h1e, h1s⟩ <;> rcases h2 with h2 | ⟨h2e, h2s⟩
  · exact Or.inl (by omega)
  · exact Or.inl (by omega)
  · exact Or.inl (by omega)
  · exact Or.inr ⟨by omega, lt_trans h1s h2s⟩

theorem keyLt_of_not_keyLt_of_keyLt {a b c : String × Nat}
    (h1 : ¬ keyLt b a) (h2 : keyLt b c) : keyLt a c := by
  rw [keyLt, not_or, not_and_or] at h1
  obtain ⟨h1c, h1s⟩ := h1
  rcases h2 with h2 | ⟨h2e, h2s⟩
  · exact Or.inl (by omega)
  · by_cases hba : b.2 = a.2
    · rcases h1s with h1s | h1s
      · exact absurd hba h1s
      · exact Or.inr ⟨by omega, lt_of_le_of_lt (le_of_not_lt h1s) h2s⟩
    · exact Or.inl (by omega)

theorem foldBest_mem (rest : List (String × Nat)) (x : String × Nat) :
    (rest.foldl (fun b y => if keyLt y b then y else b) x) ∈ x :: rest := by
  induction rest generalizing x with
  | nil => simp
  | cons y ys ih =>
    simp only [List.foldl_cons]
    have h := ih (if keyLt y x then y else x)
    rcases List.mem_cons.mp h with h | h
    · rw [h]
      split_ifs
      · exact List.mem_cons_of_mem _ (List.mem_cons_self _ _)
      · exact List.mem_cons_self _ _
    · exact List.mem_cons_of_mem _ (List.mem_cons_of_mem _ h)

theorem foldBest_min (rest : List (String × Nat)) (x : String × Nat) :
    ∀ q ∈ x :: rest, ¬ keyLt q (rest.foldl (fun b y => if keyLt y b then y else b) x) := by
  induction rest generalizing x with
  | nil =>
    intro q hq
    rw [List.mem_singleton.mp hq]
    exact keyLt_irrefl x
  | cons y ys ih =>
    intro q hq
    simp only [List.foldl_cons]
    by_cases hyx : keyLt y x
    · rw [if_pos hyx]
      rcases List.mem_cons.mp hq with heq | hq'
      · intro hqr
        rw [heq] at hqr
        exact ih y y (List.mem_cons_self y ys) (keyLt_trans hyx hqr)
      · exact ih y q hq'
    · rw [if_neg hyx]
      rcases List.mem_cons.mp hq with heq | hq'
      · intro hqr
        rw [heq] at hqr
        exact ih x x (List.mem_cons_self x ys) hqr
      · rcases List.mem_cons.mp hq' with heq | hq''
        · intro hqr
          rw [heq] at hqr
          exact ih x x (List.mem_cons_self x ys) (keyLt_of_not_keyLt_of_keyLt hyx hqr)
        · exact ih x q (List.mem_cons_of_mem x hq'')

theorem pickBest_spec (l : List (String × Nat)) (p : String × Nat)
    (h : pickBest l = some p) : p ∈ l ∧ ∀ q ∈ l, ¬ keyLt q p := by
  cases l with
  | nil => cases h
  | cons x rest =>
    simp only [pickBest, Option.some.injEq] at h
    subst h
    exact ⟨foldBest_mem rest x, foldBest_min rest x⟩

theorem pickBest_none_iff (l : List (String × Nat)) :
    pickBest l = none ↔ l = [] := by
  cases l <;> simp [pickBest]

theorem getCount_bumpCount (l : List (String × Nat)) (k j : String) :
    getCount (bumpCount l k) j = getCount l j + (if j = k then 1 else 0) := by
  induction l with
  | nil =>
    by_cases h : j = k
    · subst h; simp [bumpCount, getCount]
    · simp [bumpCount, getCount, h, Ne.symm h]
  | cons p rest ih =>
    obtain ⟨k', c⟩ := p
    by_cases hk : k' = k
    · subst hk
      by_cases hj : k' = j
      · subst hj; simp [bumpCount, getCount]
      · simp [bumpCount, getCount, hj, Ne.symm hj]
    · by_cases hj : k' = j
      · subst hj
        simp [bumpCount, getCount, hk, Ne.symm hk]
      · simp [bumpCount, getCount, hk, hj, ih]

theorem bumpCount_keys (l : List (String × Nat)) (k : String) :
    (bumpCount l k).map Prod.fst
      = if k ∈ l.map Prod.fst then l.map Prod.fst else l.map Prod.fst ++ [k] := by
  induction l with
  | nil => simp [bumpCount]
  | cons p rest ih =>
    obtain ⟨k', c⟩ := p
    by_cases hk : k' = k
    · subst hk; simp [bumpCount]
    · have hkk : k ≠ k' := fun hh => hk hh.symm
      by_cases hmem : k ∈ rest.map Prod.fst
      · simp [bumpCount, hk, ih, hmem, hkk]
      · simp [bumpCount, hk, ih, hmem, hkk]

theorem bumpCount_nodup (l : List (String × Nat)) (k : String)
    (h : (l.map Prod.fst).Nodup) : ((bumpCount l k).map Prod.fst).Nodup := by
  rw [bumpCount_keys]
  split_ifs with hk
  · exact h
  · simp [List.nodup_append, h, hk]

theorem bumpCount_pos (l : List (String × Nat)) (k : String)
    (h : ∀ p ∈ l, 0 < p.2) : ∀ p ∈ bumpCount l k, 0 < p.2 := by
  induction l with
  | nil =>
    intro p hp
    rw [List.mem_singleton.mp hp]
    exact Nat.one_pos
  | cons q rest ih =>
    obtain ⟨k', c⟩ := q
    intro p hp
    by_cases hk : k' = k
    · subst hk
      simp only [bumpCount, if_pos rfl] at hp
      rcases List.mem_cons.mp hp with rfl | hp'
      · exact Nat.succ_pos c
      · exact h p (List.mem_cons_of_mem _ hp')
    · simp only [bumpCount, if_neg hk] at hp
      rcases List.mem_cons.mp hp with rfl | hp'
      · exact h (k', c) (List.mem_cons_self _ _)
      · exact ih (fun q hq => h q (List.mem_cons_of_mem _ hq)) p hp'

theorem getCount_entry_of_nodup (l : List (String × Nat))
    (hnd : (l.map Prod.fst).Nodup) (p : String × Nat) (hp : p ∈ l) :
    p.2 = getCount l p.1 := by
  induction l with
  | nil => cases hp
  | cons q rest ih =>
    obtain ⟨k', c⟩ := q
    rcases List.mem_cons.mp hp with rfl | hp'
    · simp [getCount]
    · have hne : k' ≠ p.1 := by
        intro hh
        have : p.1 ∈ rest.map Prod.fst := List.mem_map_of_mem Prod.fst hp'
        rw [← hh] at this
        exact (List.nodup_cons.mp (by simpa using hnd)).1 this
      simp only [getCount, if_neg hne]
      exact ih (List.nodup_cons.mp (by simpa using hnd)).2 hp'

theorem getCount_pos_entry (l : List (String × Nat)) (k : String)
    (h : 0 < getCount l k) : ∃ q ∈ l, q.1 = k := by
  induction l with
  | nil => simp [getCount] at h
  | cons q rest ih =>
    obtain ⟨k', c⟩ := q
    by_cases hk : k' = k
    · exact ⟨(k', c), List.mem_cons_self _ _, hk⟩
    · rw [getCount, if_neg hk] at h
      obtain ⟨q, hq, hq1⟩ := ih h
      exact ⟨q, List.mem_cons_of_mem _ hq, hq1⟩

theorem foldl_bump_getCount (ds : List (Option String))
    (acc : List (String × Nat)) (k : String) :
    getCount (ds.foldl (fun a od =>
        match dateToYm od with
        | none => a
        | some ym => bumpCount a ym) acc) k
      = getCount acc k + (ds.filterMap dateToYm).count k := by
  induction ds generalizing acc with
  | nil => simp
  | cons d rest ih =>
    rw [List.foldl_cons, List.filterMap_cons]
    cases hd : dateToYm d with
    | none => exact ih acc
    | some ym =>
      rw [ih, getCount_bumpCount]
      by_cases hk : k = ym
      · subst hk; simp [List.count_cons]; omega
      · simp [List.count_cons, hk, Ne.symm hk]

theorem foldl_bump_nodup (ds : List (Option String)) (acc : List (String × Nat))
    (h : (acc.map Prod.fst).Nodup) :
    ((ds.foldl (fun a od =>
        match dateToYm od with
        | none => a
        | some ym => bumpCount a ym) acc).map Prod.fst).Nodup := by
  induction ds generalizing acc with
  | nil => exact h
  | cons d rest ih =>
    rw [List.foldl_cons]
    cases hd : dateToYm d with
    | none => exact ih acc h
    | some ym => exact ih _ (bumpCount_nodup acc ym h)

theorem foldl_bump_pos (ds : List (Option String)) (acc : List (String × Nat))
    (h : ∀ p ∈ acc, 0 < p.2) :
    ∀ p ∈ ds.foldl (fun a od =>
        match dateToYm od with
        | none => a
        | some ym => bumpCount a ym) acc, 0 < p.2 := by
  induction ds generalizing acc with
  | nil => exact h
  | cons d rest ih =>
    rw [List.foldl_cons]
    cases hd : dateToYm d with
    | none => exact ih acc h
    | some ym => exact ih _ (bumpCount_pos acc ym h)

theorem buildCounts_getCount (ds : List (Option String)) (k : String) :
    getCount (buildCounts ds) k = (ds.filterMap dateToYm).count k := by
  unfold buildCounts
  rw [foldl_bump_getCount]
  simp [getCount]

theorem buildCounts_nodup (ds : List (Option String)) :
    ((buildCounts ds).map Prod.fst).Nodup := by
  unfold buildCounts
  exact foldl_bump_nodup ds [] (by simp)

theorem buildCounts_pos (ds : List (Option String)) :
    ∀ p ∈ buildCounts ds, 0 < p.2 := by
  unfold buildCounts
  exact foldl_bump_pos ds [] (by simp)

theorem buildCounts_nil_iff (ds : List (Option String)) :
    buildCounts ds = [] ↔ ds.filterMap dateToYm = [] := by
  constructor
  · intro h
    by_contra hne
    obtain ⟨m, hm⟩ := List.exists_mem_of_ne_nil _ hne
    have hc : 0 < (ds.filterMap dateToYm).count m := List.count_pos_iff.mpr hm
    rw [← buildCounts_getCount, h] at hc
    simp [getCount] at hc
  · intro h
    induction ds with
    | nil => rfl
    | cons d rest ih =>
      rw [List.filterMap_cons] at h
      cases hd : dateToYm d with
      | none =>
        rw [hd] at h
        unfold buildCounts
        rw [List.foldl_cons, hd]
        exact ih h
      | some ym => rw [hd] at h; cases h

/-! ## Claim C9 -/

/-- C9: month inference counts the `YYYY-MM` keys of the valid entry dates
(day-level dates truncated, month-level dates as-is) and returns a month of
maximal count, breaking ties towards the lexicographically smallest month;
it returns nothing exactly when no entry carries a valid date; and the §8
example over `2025-08-01`, `2025-08-15`, `2025-09-01` infers `"2025-08"`. -/
theorem c9_infer_month (bm : BudgetMonth) :
    (infer_month_from_entries bm = none ↔ monthsOf bm = []) ∧
    (∀ m, infer_month_from_entries bm = some m →
      m ∈ monthsOf bm ∧
      ∀ m' ∈ monthsOf bm,
        (monthsOf bm).count m' < (monthsOf bm).count m ∨
        ((monthsOf bm).count m' = (monthsOf bm).count m ∧ m ≤ m')) ∧
    infer_month_from_entries exInfer = some ("2025-08") := by
  refine ⟨?_, ?_, by decide⟩
  · rw [infer_month_from_entries, Option.map_eq_none', pickBest_none_iff,
      buildCounts_nil_iff]
    exact Iff.rfl
  · intro m hm
    rw [infer_month_from_entries] at hm
    obtain ⟨p, hp, rfl⟩ := Option.map_eq_some'.mp hm
    obtain ⟨hmem, hmin⟩ := pickBest_spec _ p hp
    have hval : p.2 = getCount (buildCounts bm.entryDates) p.1 :=
      getCount_entry_of_nodup _ (buildCounts_nodup _) p hmem
    have hpos : 0 < p.2 := buildCounts_pos _ p hmem
    have hcnt : getCount (buildCounts bm.entryDates) p.1 = (monthsOf bm).count p.1 :=
      buildCounts_getCount _ _
    constructor
    · have : 0 < (monthsOf bm).count p.1 := by rw [← hcnt, ← hval]; exact hpos
      exact List.count_pos_iff.mp this
    · intro m' hm'
      have hc' : 0 < getCount (buildCounts bm.entryDates) m' := by
        rw [buildCounts_getCount]
        exact List.count_pos_iff.mpr hm'
      obtain ⟨q, hq, hq1⟩ := getCount_pos_entry _ _ hc'
      have hqval : q.2 = getCount (buildCounts bm.entryDates) q.1 :=
        getCount_entry_of_nodup _ (buildCounts_nodup _) q hq
      have hnot := hmin q hq
      rw [keyLt, not_or, not_and_or] at hnot
      obtain ⟨h1, h2⟩ := hnot
      have hqc : q.2 = (monthsOf bm).count m' := by
        rw [hqval, hq1, buildCounts_getCount]
        rfl
      have hpc : p.2 = (monthsOf bm).count p.1 := by rw [hval, hcnt]
      by_cases he : q.2 = p.2
      · right
        constructor
        · omega
        · rcases h2 with h2 | h2
          · exact absurd he h2
          · rw [← hq1]
            exact le_of_not_lt h2
      · left
        omega

/-- Witness for C9 at the §8 example ledger: the inference yields `2025-08`,
which indeed occurs among the months of the entry dates. -/
theorem c9_infer_month_witness :
    infer_month_from_entries exInfer = some ("2025-08") ∧
    ("2025-08") ∈ monthsOf exInfer := by
  refine ⟨(c9_infer_month exInfer).2.2, ?_⟩
  exact ((c9_infer_month exInfer).2.1 ("2025-08") (c9_infer_month exInfer).2.2).1

end Budget
